import Mathlib

/-!
# Verification of the cached S3 transcription pipeline

Shallow embedding of `src/scripts/utils_aws.py`: a transcription orchestrator
that caches transcripts in an object store, keyed by the video's base name.

The embedding models:
* Python string primitives (`replace`, `split`, `rsplit`, `os.path.basename`,
  `os.path.splitext`) as executable Lean functions over `List Char`;
* the object store as an environment function plus a write overlay;
* local scratch files as an explicit file-system state;
* every externally visible operation as an element of an `Effect` trace;
* the unbounded poll loop with explicit fuel (`none` = still polling).
-/

set_option synthInstance.maxSize 1000

/-! ## Python string primitives -/

/-- Python `s.startswith(p)`. -/
def pyStartsWith (s p : String) : Bool := p.data.isPrefixOf s.data

/-- Split a character list at the first occurrence of `sep`, returning the
part before and the part after the separator, or `none` when `sep` does not
occur. -/
def splitFirst (sep : List Char) : List Char → Option (List Char × List Char)
  | [] => none
  | c :: rest =>
    if sep.isPrefixOf (c :: rest) then some ([], (c :: rest).drop sep.length)
    else
      match splitFirst sep rest with
      | some (pre, post) => some (c :: pre, post)
      | none => none

/-- Fueled worker for Python `str.replace`: replaces every non-overlapping
occurrence of `old`, left to right. The fuel is the input length, which
suffices because `old` is non-empty at every call site. -/
def pyReplaceGo (old new : List Char) : Nat → List Char → List Char
  | _, [] => []
  | 0, s => s
  | fuel + 1, c :: rest =>
    if old.isPrefixOf (c :: rest) then
      new ++ pyReplaceGo old new fuel ((c :: rest).drop old.length)
    else
      c :: pyReplaceGo old new fuel rest

/-- Python `s.replace(old, new)` for non-empty `old` (the only use in the
source passes `"s3://"`). -/
def pyReplace (s old new : String) : String :=
  ⟨pyReplaceGo old.data new.data s.data.length s.data⟩

/-- Fueled worker for Python `str.split(sep)` (no maxsplit). -/
def pySplitGo (sep : List Char) : Nat → List Char → List (List Char)
  | 0, s => [s]
  | fuel + 1, s =>
    match splitFirst sep s with
    | none => [s]
    | some (pre, post) => pre :: pySplitGo sep fuel post

/-- Python `s.split(sep)` for non-empty `sep`: split on every occurrence. -/
def pySplit (s sep : String) : List String :=
  (pySplitGo sep.data (s.data.length + 1) s.data).map (fun l => ⟨l⟩)

/-- Python `s.split(sep, 1)`: at most one split, at the first occurrence. -/
def pySplit1 (s sep : String) : List String :=
  match splitFirst sep.data s.data with
  | none => [s]
  | some (pre, post) => [⟨pre⟩, ⟨post⟩]

/-- Join a list of strings with a separator (used to model `rsplit`). -/
def joinSep (sep : String) : List String → String
  | [] => ""
  | [x] => x
  | x :: xs => x ++ sep ++ joinSep sep xs

/-- Python `s.rsplit(".", 1)[0]`: everything before the last dot, or the
whole string when there is no dot. -/
def stripLastExt (s : String) : String :=
  let parts := pySplit s "."
  if parts.length ≤ 1 then s else joinSep "." parts.dropLast

/-- Python `os.path.basename`: the part after the last slash. -/
def pyBasename (p : String) : String := (pySplit p "/").getLastD ""

/-- Python `os.path.splitext(p)[-1]`: the extension of the final path
component including the dot, ignoring leading dots, `""` when absent. -/
def pySplitextExt (p : String) : String :=
  let b := pyBasename p
  let ld := b.data.takeWhile (fun c => c = '.')
  let rest : List Char := b.data.drop ld.length
  let parts := pySplitGo ['.'] (rest.length + 1) rest
  if parts.length ≤ 1 then "" else ⟨'.' :: parts.getLastD []⟩

/-! ## Data model: blobs, store, effects, errors -/

/-- Bytes held by the object store or a local file. A blob is either plain
text (transcript cache entries, videos, audio — their byte content is
irrelevant beyond identity) or the transcription service's structured JSON
output document, modelled by its `results.transcripts[*].transcript` fields. -/
inductive Blob
  | text (s : String)
  | transcribeJson (transcripts : List String)
deriving DecidableEq, Repr

/-- Python `bytes.decode("utf-8")` on a blob: the textual form of its bytes. -/
def Blob.decodeUtf8 : Blob → String
  | .text s => s
  | .transcribeJson ts =>
    "\x7b\"results\": \x7b\"transcripts\": [" ++
      joinSep ", " (ts.map (fun t => "\x7b\"transcript\": \"" ++ t ++ "\"\x7d")) ++
      "]\x7d\x7d"

/-- Outcome of asking the store about a (bucket, key) pair. The three
non-`found` cases are the `ClientError` classes boto3 raises. -/
inductive StoreResp
  | found (blob : Blob)
  | notFound
  | accessDenied
  | transientError
deriving DecidableEq, Repr

/-- The `ClientError` error code corresponding to a failing store response. -/
def StoreResp.errorCode : StoreResp → String
  | .found _ => ""
  | .notFound => "NoSuchKey"
  | .accessDenied => "AccessDenied"
  | .transientError => "Transient"

/-- One externally visible operation of the pipeline. `removeFile` is the
deletion of a local scratch file (`os.remove`); the source never performs
it, but the constructor is needed to state claims about cleanup. -/
inductive Effect
  | headObject (bucket key : String)
  | getObject (bucket key : String)
  | putObject (bucket key : String)
  | downloadFile (bucket key : String)
  | uploadFile (bucket key : String)
  | createTempFile (path : String)
  | removeFile (path : String)
  | runFfmpeg (inputPath outputPath : String)
  | startJob (jobName : String)
  | pollJob (jobName : String)
  | sleep (seconds : Nat)
deriving DecidableEq, Repr

/-- The Python exceptions the pipeline can raise. -/
inductive PyErr
  | assertionError (msg : String)
  | valueError (msg : String)
  | clientError (code : String)
  | calledProcessError (returncode : Nat)
  | fileNotFoundError (path : String)
  | jsonDecodeError
  | indexError
  | runtimeError (msg : String)
deriving DecidableEq, Repr

/-- Decidable equality for `Except` results (not provided by core). -/
instance {e a : Type} [DecidableEq e] [DecidableEq a] : DecidableEq (Except e a) := fun x y =>
  match x, y with
  | .error u, .error v =>
    if h : u = v then .isTrue (by rw [h])
    else .isFalse (by intro hc; apply h; injection hc)
  | .ok u, .ok v =>
    if h : u = v then .isTrue (by rw [h])
    else .isFalse (by intro hc; apply h; injection hc)
  | .error _, .ok _ => .isFalse (by intro hc; exact Except.noConfusion hc)
  | .ok _, .error _ => .isFalse (by intro hc; exact Except.noConfusion hc)

/-- Writes performed against the store during and across calls, newest
first: (bucket, key, blob). -/
abbrev Overlay := List (String × String × Blob)

/-- Look a (bucket, key) pair up in the overlay, newest write first. -/
def ovLookup : Overlay → String → String → Option Blob
  | [], _, _ => none
  | (b, k, bl) :: rest, b', k' =>
    if b = b' ∧ k = k' then some bl else ovLookup rest b' k'

/-- The fixed part of a single orchestration call's environment: the durable
store's pre-existing contents and failure behaviour, the status stream the
job service reports, the transcript fields of the service's output document,
the epoch second sampled for the job name, and the audio encoder's function
from (sample rate, video bytes) to audio bytes (`none` = non-zero exit). -/
structure CallEnv where
  base : String → String → StoreResp
  jobStatuses : Nat → String
  jobTranscripts : List String
  now : Nat
  ffmpegOut : Nat → Blob → Option Blob

/-- Read the store: recent writes shadow the base contents. -/
def readStore (env : CallEnv) (ov : Overlay) (bucket key : String) : StoreResp :=
  match ovLookup ov bucket key with
  | some b => .found b
  | none => env.base bucket key

/-- Local scratch file system: a counter naming the next temporary file and
the files present with their contents. -/
structure FS where
  counter : Nat
  files : List (String × Blob)

/-- Look up a local file's contents. -/
def FS.lookup (fs : FS) (p : String) : Option Blob :=
  match fs.files.find? (fun f => f.1 = p) with
  | some f => some f.2
  | none => none

/-! ## Embedding of `utils_aws.py` -/

/-- Embeds `extract_audio_ffmpeg(video_path, sample_rate_hz)`: create a `.wav`
temporary file and run FFmpeg into it; a missing input or an encoder failure
raises `CalledProcessError` (`subprocess.run(check=True)`). The file is
created with `delete=False` and never removed. -/
def extract_audio_ffmpeg (env : CallEnv) (fs : FS) (video_path : String)
    (sample_rate_hz : Nat := 16000) :
    Except PyErr (String × FS) × List Effect :=
  let tmp_wav := "/tmp/tmp" ++ Nat.repr fs.counter ++ ".wav"
  let tr : List Effect := [.createTempFile tmp_wav, .runFfmpeg video_path tmp_wav]
  match fs.lookup video_path with
  | none => (.error (.calledProcessError 1), tr)
  | some vb =>
    match env.ffmpegOut sample_rate_hz vb with
    | none => (.error (.calledProcessError 1), tr)
    | some wb => (.ok (tmp_wav, ⟨fs.counter + 1, (tmp_wav, wb) :: fs.files⟩), tr)

/-- Embeds `upload_to_s3(local_path, bucket_name, key)`: put the local file's bytes
to the store and return the object's `s3://` URI. -/
def upload_to_s3 (fs : FS) (ov : Overlay) (local_path bucket_name key : String) :
    Except PyErr (String × Overlay) × List Effect :=
  match fs.lookup local_path with
  | none => (.error (.fileNotFoundError local_path), [])
  | some b =>
    (.ok ("s3://" ++ bucket_name ++ "/" ++ key, (bucket_name, key, b) :: ov),
     [.uploadFile bucket_name key])

/-- Embeds `download_from_s3(bucket_name, key)`: create a temporary file whose
suffix is the key's extension (the file exists even when the download then
fails), and fill it from the store; a failing store response raises
`ClientError`. -/
def download_from_s3 (env : CallEnv) (ov : Overlay) (fs : FS)
    (bucket_name key : String) :
    Except PyErr (String × FS) × List Effect :=
  let path := "/tmp/tmp" ++ Nat.repr fs.counter ++ pySplitextExt key
  let tr : List Effect := [.createTempFile path, .downloadFile bucket_name key]
  match readStore env ov bucket_name key with
  | .found b => (.ok (path, ⟨fs.counter + 1, (path, b) :: fs.files⟩), tr)
  | r => (.error (.clientError r.errorCode), tr)

/-- Embeds `check_cache(bucket_name, transcript_key)`: `head_object` then
`get_object` and decode; **every** `ClientError` (not only `NoSuchKey`) is
caught and turned into the miss result `(False, "")`. -/
def check_cache (env : CallEnv) (ov : Overlay) (bucket_name transcript_key : String) :
    (Bool × String) × List Effect :=
  match readStore env ov bucket_name transcript_key with
  | .found b =>
    ((true, b.decodeUtf8),
     [.headObject bucket_name transcript_key, .getObject bucket_name transcript_key])
  | _ => ((false, ""), [.headObject bucket_name transcript_key])

/-- Embeds `save_transcript_cache(bucket_name, key, transcript)`: `put_object` of
the plain text. -/
def save_transcript_cache (ov : Overlay) (bucket_name key transcript : String) :
    Overlay × List Effect :=
  ((bucket_name, key, .text transcript) :: ov, [.putObject bucket_name key])

/-- Is a reported job status terminal for the poll loop? -/
def isTerminalStatus (s : String) : Bool := s = "COMPLETED" || s = "FAILED"

/-- The `while True` poll loop of `run_transcription_job`: poll the status at
index `i`; stop on a terminal status, otherwise sleep 10 seconds and poll
again. `fuel` bounds the modelled iterations; `none` means the loop is still
running after `fuel` polls (the source has no timeout). -/
def pollLoop (job_name : String) (statuses : Nat → String) :
    Nat → Nat → Option String × List Effect
  | _, 0 => (none, [])
  | i, fuel + 1 =>
    if isTerminalStatus (statuses i) then (some (statuses i), [.pollJob job_name])
    else
      let r := pollLoop job_name statuses (i + 1) fuel
      (r.1, .pollJob job_name :: .sleep 10 :: r.2)

/-- Embeds `run_transcription_job(client, job_name, s3_audio_uri, bucket_name,
language_code)`: submit the job, poll until terminal, raise `RuntimeError`
on `FAILED`, and return the output key on success. On completion the
external service has durably written its output document under the output
key — that write belongs to the service, so it updates the overlay without
appearing in this program's effect trace. -/
def run_transcription_job (env : CallEnv) (ov : Overlay) (fuel : Nat)
    (job_name s3_audio_uri bucket_name : String)
    (language_code : String := "en-US") :
    Option (Except PyErr String × Overlay × List Effect) :=
  let output_key := "transcription/" ++ job_name ++ ".json"
  match pollLoop job_name env.jobStatuses 0 fuel with
  | (none, _) => none
  | (some s, tr) =>
    if s = "FAILED" then
      some (.error (.runtimeError ("Transcription job failed: " ++ s)), ov,
            .startJob job_name :: tr)
    else
      some (.ok output_key,
            (bucket_name, output_key, .transcribeJson env.jobTranscripts) :: ov,
            .startJob job_name :: tr)

/-- URI parsing prefix of `transcribe_s3_video_with_cache`:
`assert s3_video_uri.startswith("s3://")`, then
`bucket_name, key = s3_video_uri.replace("s3://", "").split("/", 1)`.
Note `replace` removes every occurrence of `"s3://"`, and a remainder with
no `/` makes the tuple unpacking raise `ValueError`. -/
def parseS3Uri (s3_video_uri : String) : Except PyErr (String × String) :=
  if pyStartsWith s3_video_uri "s3://" then
    match splitFirst ['/'] (pyReplace s3_video_uri "s3://" "").data with
    | some (b, k) => .ok (⟨b⟩, ⟨k⟩)
    | none => .error (.valueError "not enough values to unpack")
  else
    .error (.assertionError "Invalid S3 URI format")

/-- Derived key: `video_name = os.path.basename(key).rsplit(".", 1)[0]`. -/
def video_name_of (key : String) : String := stripLastExt (pyBasename key)

/-- Derived key: `transcript_key = f"transcription/(video_name).txt"`. -/
def transcript_key_of (key : String) : String :=
  "transcription/" ++ video_name_of key ++ ".txt"

/-- Derived key: `audio_key = f"audio/(video_name).wav"`. -/
def audio_key_of (key : String) : String :=
  "audio/" ++ video_name_of key ++ ".wav"

/-- Derived name: `job_name = f"transcribe-(video_name)-(int(time.time()))"`. -/
def job_name_of (key : String) (now : Nat) : String :=
  "transcribe-" ++ video_name_of key ++ "-" ++ Nat.repr now

/-- Derived key: `output_key = f"transcription/(job_name).json"`. -/
def output_key_of (job_name : String) : String :=
  "transcription/" ++ job_name ++ ".json"

/-- The cache-miss tail of `transcribe_s3_video_with_cache`: download the
video, extract and upload audio, run the transcription job, fetch and parse
the output JSON, cache the transcript, and return
`(full_transcript, full_transcript.split(". "), False)`. `tr1` is the trace
already produced by the cache check. -/
def missPath (env : CallEnv) (ov : Overlay) (fuel : Nat)
    (bucket_name key : String) (sample_rate_hz : Nat) (tr1 : List Effect) :
    Option (Except PyErr (String × List String × Bool) × Overlay × List Effect) :=
  match download_from_s3 env ov ⟨0, []⟩ bucket_name key with
  | (.error e, tr2) => some (.error e, ov, tr1 ++ tr2)
  | (.ok (tmp_video, fs1), tr2) =>
    match extract_audio_ffmpeg env fs1 tmp_video sample_rate_hz with
    | (.error e, tr3) => some (.error e, ov, tr1 ++ tr2 ++ tr3)
    | (.ok (wav_path, fs2), tr3) =>
      match upload_to_s3 fs2 ov wav_path bucket_name (audio_key_of key) with
      | (.error e, tr4) => some (.error e, ov, tr1 ++ tr2 ++ tr3 ++ tr4)
      | (.ok (s3_audio_uri, ov1), tr4) =>
        match run_transcription_job env ov1 fuel (job_name_of key env.now)
            s3_audio_uri bucket_name with
        | none => none
        | some (.error e, ov2, tr5) =>
          some (.error e, ov2, tr1 ++ tr2 ++ tr3 ++ tr4 ++ tr5)
        | some (.ok output_json_key, ov2, tr5) =>
          match download_from_s3 env ov2 fs2 bucket_name output_json_key with
          | (.error e, tr6) =>
            some (.error e, ov2, tr1 ++ tr2 ++ tr3 ++ tr4 ++ tr5 ++ tr6)
          | (.ok (tmp_json, fs3), tr6) =>
            match fs3.lookup tmp_json with
            | none =>
              some (.error (.fileNotFoundError tmp_json), ov2,
                    tr1 ++ tr2 ++ tr3 ++ tr4 ++ tr5 ++ tr6)
            | some (.text _) =>
              some (.error .jsonDecodeError, ov2,
                    tr1 ++ tr2 ++ tr3 ++ tr4 ++ tr5 ++ tr6)
            | some (.transcribeJson []) =>
              some (.error .indexError, ov2,
                    tr1 ++ tr2 ++ tr3 ++ tr4 ++ tr5 ++ tr6)
            | some (.transcribeJson (full_transcript :: _)) =>
              match save_transcript_cache ov2 bucket_name (transcript_key_of key)
                  full_transcript with
              | (ov3, tr7) =>
                some (.ok (full_transcript, pySplit full_transcript ". ", false), ov3,
                      tr1 ++ tr2 ++ tr3 ++ tr4 ++ tr5 ++ tr6 ++ tr7)

/-- Embeds `transcribe_s3_video_with_cache(s3_video_uri, ...)`: parse the URI,
derive the keys, check the cache, and on a hit return
`(cached, cached.split(". "), True)` at once; otherwise run the miss path. -/
def transcribe_s3_video_with_cache (env : CallEnv) (ov : Overlay) (fuel : Nat)
    (s3_video_uri : String) (sample_rate_hz : Nat := 16000) :
    Option (Except PyErr (String × List String × Bool) × Overlay × List Effect) :=
  match parseS3Uri s3_video_uri with
  | .error e => some (.error e, ov, [])
  | .ok (bucket_name, key) =>
    match check_cache env ov bucket_name (transcript_key_of key) with
    | ((true, cached_transcript), tr1) =>
      some (.ok (cached_transcript, pySplit cached_transcript ". ", true), ov, tr1)
    | ((false, _), tr1) =>
      missPath env ov fuel bucket_name key sample_rate_hz tr1

/-! ## Trace-shape lemmas for the pipeline stages -/

theorem check_cache_trace_cases (env : CallEnv) (ov : Overlay) (b k : String)
    (e : Effect) (h : e ∈ (check_cache env ov b k).2) :
    e = .headObject b k ∨ e = .getObject b k := by
  unfold check_cache at h
  split at h <;> simp_all

theorem check_cache_trace_head (env : CallEnv) (ov : Overlay) (b k : String) :
    ∃ rest, (check_cache env ov b k).2 = Effect.headObject b k :: rest := by
  unfold check_cache
  split <;> exact ⟨_, rfl⟩

theorem download_from_s3_trace (env : CallEnv) (ov : Overlay) (fs : FS) (b k : String) :
    (download_from_s3 env ov fs b k).2 =
      [.createTempFile ("/tmp/tmp" ++ Nat.repr fs.counter ++ pySplitextExt k),
       .downloadFile b k] := by
  unfold download_from_s3
  split <;> rfl

theorem extract_audio_ffmpeg_trace (env : CallEnv) (fs : FS) (p : String) (sr : Nat) :
    (extract_audio_ffmpeg env fs p sr).2 =
      [.createTempFile ("/tmp/tmp" ++ Nat.repr fs.counter ++ ".wav"),
       .runFfmpeg p ("/tmp/tmp" ++ Nat.repr fs.counter ++ ".wav")] := by
  unfold extract_audio_ffmpeg
  split
  · rfl
  · split <;> rfl

theorem upload_to_s3_trace_cases (fs : FS) (ov : Overlay) (p b k : String)
    (e : Effect) (h : e ∈ (upload_to_s3 fs ov p b k).2) :
    e = .uploadFile b k := by
  unfold upload_to_s3 at h
  split at h <;> simp_all

theorem pollLoop_trace_cases (j : String) (s : Nat → String) :
    ∀ (fuel i : Nat) (e : Effect), e ∈ (pollLoop j s i fuel).2 →
      e = .pollJob j ∨ e = .sleep 10 := by
  intro fuel
  induction fuel with
  | zero => intro i e h; simp [pollLoop] at h
  | succ n ih =>
    intro i e h
    unfold pollLoop at h
    split at h
    · simp_all
    · simp only [List.mem_cons] at h
      rcases h with h | h | h
      · exact Or.inl h
      · exact Or.inr h
      · exact ih (i + 1) e h

theorem run_transcription_job_trace_cases (env : CallEnv) (ov : Overlay) (fuel : Nat)
    (j a b lc : String) (r : Except PyErr String) (ov2 : Overlay) (tr : List Effect)
    (h : run_transcription_job env ov fuel j a b lc = some (r, ov2, tr))
    (e : Effect) (he : e ∈ tr) :
    e = .startJob j ∨ e = .pollJob j ∨ e = .sleep 10 := by
  unfold run_transcription_job at h
  split at h
  · simp at h
  · next s tr' heq =>
    have htr' : (pollLoop j env.jobStatuses 0 fuel).2 = tr' := congrArg Prod.snd heq
    split at h <;>
    · simp only [Option.some.injEq, Prod.mk.injEq] at h
      obtain ⟨h1, h2, h3⟩ := h
      subst h3
      rcases List.mem_cons.mp he with hc | hc
      · exact Or.inl hc
      · rcases pollLoop_trace_cases j env.jobStatuses fuel 0 e (htr' ▸ hc) with hp | hp
        · exact Or.inr (Or.inl hp)
        · exact Or.inr (Or.inr hp)

/-! ## Cache-hit short circuit -/

/-- Helper: when the parsed reference's transcript key holds text `t`, the
orchestrator returns the cached result at once, with only the two cache
reads in its trace and the store overlay untouched. -/
theorem transcribe_hit_of_found (env : CallEnv) (ov : Overlay) (fuel : Nat)
    (uri bucket key t : String) (sr : Nat)
    (hp : parseS3Uri uri = .ok (bucket, key))
    (hs : readStore env ov bucket (transcript_key_of key) = .found (.text t)) :
    transcribe_s3_video_with_cache env ov fuel uri sr =
      some (.ok (t, pySplit t ". ", true), ov,
            [.headObject bucket (transcript_key_of key),
             .getObject bucket (transcript_key_of key)]) := by
  unfold transcribe_s3_video_with_cache
  rw [hp]
  simp only [check_cache, hs, Blob.decodeUtf8]

/-- Effects that belong to the cache lookup itself (store reads only). -/
def Effect.isCacheRead : Effect → Bool
  | .headObject _ _ => true
  | .getObject _ _ => true
  | _ => false

/-- C1: when the transcript cache key of the parsed S3 video URI already
holds text `t`, `transcribe_s3_video_with_cache` returns
`(t, t.split(". "), True)` immediately, leaves the store unwritten, and its
trace holds only the cache lookup's reads — no download, extraction, upload,
job submission or poll, and no put. -/
theorem cache_hit_skips_pipeline (env : CallEnv) (ov : Overlay) (fuel : Nat)
    (uri bucket key t : String) (sr : Nat)
    (hp : parseS3Uri uri = .ok (bucket, key))
    (hs : readStore env ov bucket (transcript_key_of key) = .found (.text t)) :
    transcribe_s3_video_with_cache env ov fuel uri sr =
      some (.ok (t, pySplit t ". ", true), ov,
            [.headObject bucket (transcript_key_of key),
             .getObject bucket (transcript_key_of key)]) ∧
    (∀ res ov' tr, transcribe_s3_video_with_cache env ov fuel uri sr = some (res, ov', tr) →
      ∀ e ∈ tr, e.isCacheRead = true) := by
  have h := transcribe_hit_of_found env ov fuel uri bucket key t sr hp hs
  refine ⟨h, ?_⟩
  intro res ov' tr h2 e he
  rw [h] at h2
  simp only [Option.some.injEq, Prod.mk.injEq] at h2
  obtain ⟨-, -, h3⟩ := h2
  subst h3
  simp only [List.mem_cons, List.not_mem_nil, or_false] at he
  rcases he with rfl | rfl <;> rfl

/-- Environment for the cache-hit witness: the transcript for `demo` is
already cached; every other operation would fail. -/
def envC1 : CallEnv where
  base := fun b k =>
    if b = "meet" ∧ k = "transcription/demo.txt" then .found (.text "Hi there. Bye.")
    else .notFound
  jobStatuses := fun _ => "IN_PROGRESS"
  jobTranscripts := []
  now := 0
  ffmpegOut := fun _ _ => none

theorem cache_hit_skips_pipeline_witness :
    transcribe_s3_video_with_cache envC1 [] 0 "s3://meet/video/demo.mp4" 16000 =
      some (.ok ("Hi there. Bye.", ["Hi there", "Bye."], true), [],
            [.headObject "meet" "transcription/demo.txt",
             .getObject "meet" "transcription/demo.txt"]) :=
  (cache_hit_skips_pipeline envC1 [] 0 "s3://meet/video/demo.mp4" "meet" "video/demo.mp4"
    "Hi there. Bye." 16000 rfl (by decide)).1

/-! ## Cache lookup error handling (C2) -/

/-- A store that denies every request (an `AccessDenied` `ClientError`, not
a `NotFound`). -/
def envC2 : CallEnv where
  base := fun _ _ => .accessDenied
  jobStatuses := fun _ => "IN_PROGRESS"
  jobTranscripts := []
  now := 0
  ffmpegOut := fun _ _ => none

/-- C2 counterexample: on a permission failure — a store failure other than
"not found" — `check_cache` returns the ordinary miss result `(False, "")`
instead of propagating a distinguishable error: the blanket
`except ClientError` catches every failure class. (Its return type carries
no error at all.) -/
theorem check_cache_counterexample :
    readStore envC2 [] "meet" "transcription/demo.txt" = .accessDenied ∧
    check_cache envC2 [] "meet" "transcription/demo.txt" =
      ((false, ""), [.headObject "meet" "transcription/demo.txt"]) :=
  ⟨rfl, rfl⟩

/-- C2 amended: `check_cache` converts **every** failing store response —
`AccessDenied` and transient failures just like `NotFound` — into the
normal miss result `(False, "")`; no store failure is distinguished. -/
theorem check_cache_swallows_all_client_errors (env : CallEnv) (ov : Overlay)
    (b k : String)
    (h : readStore env ov b k = .accessDenied ∨
         readStore env ov b k = .transientError ∨
         readStore env ov b k = .notFound) :
    check_cache env ov b k = ((false, ""), [.headObject b k]) := by
  unfold check_cache
  rcases h with h | h | h <;> rw [h]

theorem check_cache_swallows_all_client_errors_witness :
    check_cache envC2 [] "meet" "transcription/demo.txt" =
      ((false, ""), [.headObject "meet" "transcription/demo.txt"]) :=
  check_cache_swallows_all_client_errors envC2 [] "meet" "transcription/demo.txt"
    (Or.inl (by decide))

/-! ## Segment split law (C6) -/

/-- A store holding the video `video/x.mp4` in bucket `b1` and nothing
else; the job completes at once and its output document's transcript is
`"Hello world. This is a test."`. -/
def envC6 : CallEnv where
  base := fun b k =>
    if b = "b1" ∧ k = "video/x.mp4" then .found (.text "V") else .notFound
  jobStatuses := fun _ => "COMPLETED"
  jobTranscripts := ["Hello world. This is a test."]
  now := 0
  ffmpegOut := fun _ _ => some (.text "W")

/-- The transcript for `x` is already cached as
`"Hello world. This is a test."`. -/
def envC6hit : CallEnv where
  base := fun b k =>
    if b = "b1" ∧ k = "transcription/x.txt" then
      .found (.text "Hello world. This is a test.")
    else .notFound
  jobStatuses := fun _ => "IN_PROGRESS"
  jobTranscripts := []
  now := 0
  ffmpegOut := fun _ _ => none

/-- C6: for the transcript text `"Hello world. This is a test."` the segment
sequence produced by `transcribe_s3_video_with_cache` is exactly
`["Hello world", "This is a test."]` — on the miss path (fresh
transcription) and on the hit path alike: the split is on the literal
two-character delimiter `". "`. -/
theorem segment_split_law :
    transcribe_s3_video_with_cache envC6 [] 1 "s3://b1/video/x.mp4" 16000 =
      some (.ok ("Hello world. This is a test.",
                 ["Hello world", "This is a test."], false),
            [("b1", "transcription/x.txt", .text "Hello world. This is a test."),
             ("b1", "transcription/transcribe-x-0.json",
              .transcribeJson ["Hello world. This is a test."]),
             ("b1", "audio/x.wav", .text "W")],
            [.headObject "b1" "transcription/x.txt",
             .createTempFile "/tmp/tmp0.mp4",
             .downloadFile "b1" "video/x.mp4",
             .createTempFile "/tmp/tmp1.wav",
             .runFfmpeg "/tmp/tmp0.mp4" "/tmp/tmp1.wav",
             .uploadFile "b1" "audio/x.wav",
             .startJob "transcribe-x-0",
             .pollJob "transcribe-x-0",
             .createTempFile "/tmp/tmp2.json",
             .downloadFile "b1" "transcription/transcribe-x-0.json",
             .putObject "b1" "transcription/x.txt"]) ∧
    transcribe_s3_video_with_cache envC6hit [] 0 "s3://b1/video/x.mp4" 16000 =
      some (.ok ("Hello world. This is a test.",
                 ["Hello world", "This is a test."], true), [],
            [.headObject "b1" "transcription/x.txt",
             .getObject "b1" "transcription/x.txt"]) :=
  ⟨by decide, by decide⟩

/-! ## Shape of successful miss-path runs -/

/-- Helper: a successful miss-path run returns `cacheHit = false`, segments
obtained by splitting the returned text on `". "`, and an overlay whose
newest entry is the transcript written under the derived cache key of the
call's own bucket. -/
theorem missPath_ok_shape (env : CallEnv) (ov : Overlay) (fuel : Nat)
    (bucket key : String) (sr : Nat) (tr1 : List Effect)
    (t : String) (segs : List String) (c : Bool) (ov' : Overlay) (tr : List Effect)
    (h : missPath env ov fuel bucket key sr tr1 = some (.ok (t, segs, c), ov', tr)) :
    segs = pySplit t ". " ∧ c = false ∧
      ∃ rest, ov' = (bucket, transcript_key_of key, Blob.text t) :: rest := by
  unfold missPath at h
  simp only [save_transcript_cache] at h
  repeat' split at h
  all_goals simp_all
  obtain ⟨⟨h1, h2, h3⟩, h4, h5⟩ := h
  subst h1
  exact ⟨h2.symm, ⟨_, h4.symm⟩⟩

/-- C10: on every successful return of `transcribe_s3_video_with_cache` —
hit or miss — the returned segment list is the returned transcript split on
the literal delimiter `". "`; both return sites apply the same rule. -/
theorem segments_split_returned_text (env : CallEnv) (ov : Overlay) (fuel : Nat)
    (uri : String) (sr : Nat) (t : String) (segs : List String) (c : Bool)
    (ov' : Overlay) (tr : List Effect)
    (h : transcribe_s3_video_with_cache env ov fuel uri sr =
          some (.ok (t, segs, c), ov', tr)) :
    segs = pySplit t ". " := by
  unfold transcribe_s3_video_with_cache at h
  split at h
  · simp_all
  · split at h
    · simp only [Option.some.injEq, Prod.mk.injEq, Except.ok.injEq] at h
      obtain ⟨⟨h1, h2, -⟩, -, -⟩ := h
      subst h1
      exact h2.symm
    · exact (missPath_ok_shape _ _ _ _ _ _ _ _ _ _ _ _ h).1

theorem segments_split_returned_text_witness :
    ["Hi there", "Bye."] = pySplit "Hi there. Bye." ". " :=
  segments_split_returned_text envC1 [] 0 "s3://meet/video/demo.mp4" 16000
    "Hi there. Bye." ["Hi there", "Bye."] true []
    [.headObject "meet" "transcription/demo.txt",
     .getObject "meet" "transcription/demo.txt"] (by decide)

/-- Helper: a successful cache-miss run writes the transcript as the newest
store entry, under the call's own bucket and the key-derived cache key. -/
theorem transcribe_miss_ok_overlay (env : CallEnv) (ov : Overlay) (fuel : Nat)
    (uri bucket key : String) (sr : Nat) (t : String) (segs : List String)
    (ov' : Overlay) (tr : List Effect)
    (hp : parseS3Uri uri = .ok (bucket, key))
    (h : transcribe_s3_video_with_cache env ov fuel uri sr =
          some (.ok (t, segs, false), ov', tr)) :
    ∃ rest, ov' = (bucket, transcript_key_of key, Blob.text t) :: rest := by
  unfold transcribe_s3_video_with_cache at h
  split at h
  · next e heq => rw [hp] at heq; exact absurd heq (by simp)
  · next b' k' heq =>
    rw [hp] at heq
    simp only [Except.ok.injEq, Prod.mk.injEq] at heq
    obtain ⟨hb, hk⟩ := heq
    subst hb
    subst hk
    split at h
    · simp_all
    · exact (missPath_ok_shape _ _ _ _ _ _ _ _ _ _ _ _ h).2.2

/-- The overlay left behind by a full successful run of `envC6` on
`s3://b1/video/x.mp4` (newest write first). -/
def ovAfterC6run : Overlay :=
  [("b1", "transcription/x.txt", .text "Hello world. This is a test."),
   ("b1", "transcription/transcribe-x-0.json",
    .transcribeJson ["Hello world. This is a test."]),
   ("b1", "audio/x.wav", .text "W")]

/-- C3 counterexample: the cache entry is scoped by bucket, so two
references with the same base name in **different** containers do not
alias. A full pipeline run for `s3://b1/video/x.mp4` stores the transcript
(newest overlay entry `("b1", "transcription/x.txt", …)`), yet the
subsequent call for `s3://b2/video/x.mp4` — same base name `x`, container
`b2` — does not return a cache hit: it misses and starts the pipeline
(failing here at the video download because `b2` holds nothing). -/
theorem cross_container_no_alias_counterexample :
    (transcribe_s3_video_with_cache envC6 [] 1 "s3://b1/video/x.mp4" 16000).map
        (fun r => r.2.1) = some ovAfterC6run ∧
    transcribe_s3_video_with_cache envC6 ovAfterC6run 1 "s3://b2/video/x.mp4" 16000 =
      some (.error (.clientError "NoSuchKey"), ovAfterC6run,
            [.headObject "b2" "transcription/x.txt",
             .createTempFile "/tmp/tmp0.mp4",
             .downloadFile "b2" "video/x.mp4"]) :=
  ⟨by decide, by decide⟩

/-- C3 amended: the aliasing is **within one container**: two distinct
references with the same container and the same base name (extension
stripped) share the transcript cache key, so a transcript stored by a
successful pipeline run for one is returned as a cache hit by a subsequent
transcribe call for the other. Different containers do not alias (see the
counterexample). -/
theorem same_container_basename_alias (env1 env2 : CallEnv) (ov : Overlay)
    (fuel1 fuel2 : Nat) (uri1 uri2 bucket k1 k2 t : String) (segs : List String)
    (ov1 : Overlay) (tr1 : List Effect) (sr1 sr2 : Nat)
    (hp1 : parseS3Uri uri1 = .ok (bucket, k1))
    (hp2 : parseS3Uri uri2 = .ok (bucket, k2))
    (hname : video_name_of k2 = video_name_of k1)
    (h1 : transcribe_s3_video_with_cache env1 ov fuel1 uri1 sr1 =
           some (.ok (t, segs, false), ov1, tr1)) :
    transcribe_s3_video_with_cache env2 ov1 fuel2 uri2 sr2 =
      some (.ok (t, pySplit t ". ", true), ov1,
            [.headObject bucket (transcript_key_of k2),
             .getObject bucket (transcript_key_of k2)]) := by
  obtain ⟨rest, hov⟩ :=
    transcribe_miss_ok_overlay env1 ov fuel1 uri1 bucket k1 sr1 t segs ov1 tr1 hp1 h1
  have htk : transcript_key_of k2 = transcript_key_of k1 := by
    unfold transcript_key_of
    rw [hname]
  have hs : readStore env2 ov1 bucket (transcript_key_of k2) = .found (.text t) := by
    rw [htk, hov]
    unfold readStore ovLookup
    simp
  exact transcribe_hit_of_found env2 ov1 fuel2 uri2 bucket k2 t sr2 hp2 hs

theorem same_container_basename_alias_witness :
    transcribe_s3_video_with_cache envC6 ovAfterC6run 0 "s3://b1/clips/x.mov" 16000 =
      some (.ok ("Hello world. This is a test.",
                 ["Hello world", "This is a test."], true), ovAfterC6run,
            [.headObject "b1" "transcription/x.txt",
             .getObject "b1" "transcription/x.txt"]) :=
  same_container_basename_alias envC6 envC6 [] 1 0
    "s3://b1/video/x.mp4" "s3://b1/clips/x.mov" "b1" "video/x.mp4" "clips/x.mov"
    "Hello world. This is a test." ["Hello world", "This is a test."]
    ovAfterC6run
    [.headObject "b1" "transcription/x.txt",
     .createTempFile "/tmp/tmp0.mp4",
     .downloadFile "b1" "video/x.mp4",
     .createTempFile "/tmp/tmp1.wav",
     .runFfmpeg "/tmp/tmp0.mp4" "/tmp/tmp1.wav",
     .uploadFile "b1" "audio/x.wav",
     .startJob "transcribe-x-0",
     .pollJob "transcribe-x-0",
     .createTempFile "/tmp/tmp2.json",
     .downloadFile "b1" "transcription/transcribe-x-0.json",
     .putObject "b1" "transcription/x.txt"]
    16000 16000 rfl rfl (by decide) (by decide)

/-! ## Poll-loop behaviour -/

/-- When the status stream's first terminal status (from index `i`) is at
offset `n` and the fuel exceeds `n`, the poll loop stops and returns that
status. -/
theorem pollLoop_first_terminal (j : String) (s : Nat → String) :
    ∀ (n i fuel : Nat),
      (∀ m, m < n → isTerminalStatus (s (i + m)) = false) →
      isTerminalStatus (s (i + n)) = true →
      n < fuel →
      (pollLoop j s i fuel).1 = some (s (i + n)) := by
  intro n
  induction n with
  | zero =>
    intro i fuel h0 ht hf
    match fuel, hf with
    | fuel + 1, _ =>
      unfold pollLoop
      simp only [Nat.add_zero] at ht
      simp [ht]
  | succ n ih =>
    intro i fuel h0 ht hf
    match fuel, hf with
    | fuel + 1, hf =>
      unfold pollLoop
      have hni : isTerminalStatus (s i) = false := by
        have := h0 0 (Nat.succ_pos n)
        simpa using this
      simp only [hni, Bool.false_eq_true, if_false]
      have h0' : ∀ m, m < n → isTerminalStatus (s (i + 1 + m)) = false := by
        intro m hm
        have := h0 (m + 1) (by omega)
        rwa [show i + (m + 1) = i + 1 + m by omega] at this
      have ht' : isTerminalStatus (s (i + 1 + n)) = true := by
        rwa [show i + (n + 1) = i + 1 + n by omega] at ht
      have hres := ih (i + 1) fuel h0' ht' (by omega)
      rw [show i + 1 + n = i + (n + 1) by omega] at hres
      exact hres

/-- With no terminal status within the fuel, the poll loop is still
running. -/
theorem pollLoop_still_running (j : String) (s : Nat → String) :
    ∀ (fuel i : Nat),
      (∀ m, m < fuel → isTerminalStatus (s (i + m)) = false) →
      (pollLoop j s i fuel).1 = none := by
  intro fuel
  induction fuel with
  | zero => intro i _; rfl
  | succ n ih =>
    intro i h
    unfold pollLoop
    have h0 : isTerminalStatus (s i) = false := by
      simpa using h 0 (Nat.succ_pos n)
    simp only [h0, Bool.false_eq_true, if_false]
    apply ih
    intro m hm
    have := h (m + 1) (by omega)
    rwa [show i + (m + 1) = i + 1 + m by omega] at this

/-- Conversely, a run that stops found a terminal status. -/
theorem pollLoop_some_terminal (j : String) (s : Nat → String) :
    ∀ (fuel i : Nat) (r : String), (pollLoop j s i fuel).1 = some r →
      ∃ m, isTerminalStatus (s (i + m)) = true := by
  intro fuel
  induction fuel with
  | zero => intro i r h; simp [pollLoop] at h
  | succ n ih =>
    intro i r h
    unfold pollLoop at h
    split at h
    · next ht => exact ⟨0, by simpa using ht⟩
    · simp only at h
      obtain ⟨m, hm⟩ := ih (i + 1) r h
      exact ⟨m + 1, by rwa [show i + (m + 1) = i + 1 + m by omega]⟩

/-- Exact poll count: stopping at the first terminal status at offset `n`
performs `n + 1` polls. -/
theorem pollLoop_poll_count (j : String) (s : Nat → String) :
    ∀ (n i fuel : Nat),
      (∀ m, m < n → isTerminalStatus (s (i + m)) = false) →
      isTerminalStatus (s (i + n)) = true →
      n < fuel →
      ((pollLoop j s i fuel).2.count (Effect.pollJob j) = n + 1 ∧
       (pollLoop j s i fuel).2.count (Effect.sleep 10) = n) := by
  intro n
  induction n with
  | zero =>
    intro i fuel h0 ht hf
    match fuel, hf with
    | fuel + 1, _ =>
      unfold pollLoop
      simp only [Nat.add_zero] at ht
      simp [ht]
  | succ n ih =>
    intro i fuel h0 ht hf
    match fuel, hf with
    | fuel + 1, hf =>
      unfold pollLoop
      have hni : isTerminalStatus (s i) = false := by
        have := h0 0 (Nat.succ_pos n)
        simpa using this
      simp only [hni, Bool.false_eq_true, if_false]
      have h0' : ∀ m, m < n → isTerminalStatus (s (i + 1 + m)) = false := by
        intro m hm
        have := h0 (m + 1) (by omega)
        rwa [show i + (m + 1) = i + 1 + m by omega] at this
      have ht' : isTerminalStatus (s (i + 1 + n)) = true := by
        rwa [show i + (n + 1) = i + 1 + n by omega] at ht
      obtain ⟨hc1, hc2⟩ := ih (i + 1) fuel h0' ht' (by omega)
      simp [List.count_cons, hc1, hc2]

/-- Any terminal status in the stream lets the loop stop within the
corresponding fuel. -/
theorem pollLoop_isSome_of_terminal (j : String) (s : Nat → String) :
    ∀ (n i : Nat), isTerminalStatus (s (i + n)) = true →
      ((pollLoop j s i (n + 1)).1).isSome := by
  intro n
  induction n with
  | zero =>
    intro i ht
    unfold pollLoop
    simp only [Nat.add_zero] at ht
    simp [ht]
  | succ n ih =>
    intro i ht
    unfold pollLoop
    by_cases h0 : isTerminalStatus (s i) = true
    · simp [h0]
    · have h0' : isTerminalStatus (s i) = false := by simpa using h0
      simp only [h0', Bool.false_eq_true, if_false]
      exact ih (i + 1) (by rwa [show i + 1 + n = i + (n + 1) by omega])

/-- C7: the poll loop of `run_transcription_job` terminates exactly when the
service eventually reports `COMPLETED` or `FAILED`; every sleep between
polls is the fixed 10-second interval; and there is no upper bound on the
number of polls (no timeout): when the first terminal status appears at
index `n`, the loop is still running after `n` polls, and stops after
exactly `n + 1` polls with `n` sleeps — for every `n`. -/
theorem poll_until_terminal (j : String) (s : Nat → String) :
    ((∃ fuel, ((pollLoop j s 0 fuel).1).isSome) ↔
      ∃ i, isTerminalStatus (s i) = true) ∧
    (∀ fuel i k, Effect.sleep k ∈ (pollLoop j s i fuel).2 → k = 10) ∧
    (∀ n, (∀ m, m < n → isTerminalStatus (s m) = false) →
      isTerminalStatus (s n) = true →
      (pollLoop j s 0 n).1 = none ∧
      (pollLoop j s 0 (n + 1)).1 = some (s n) ∧
      (pollLoop j s 0 (n + 1)).2.count (.pollJob j) = n + 1 ∧
      (pollLoop j s 0 (n + 1)).2.count (.sleep 10) = n) := by
  refine ⟨⟨?_, ?_⟩, ?_, ?_⟩
  · rintro ⟨fuel, hsome⟩
    obtain ⟨r, hr⟩ := Option.isSome_iff_exists.mp hsome
    obtain ⟨m, hm⟩ := pollLoop_some_terminal j s fuel 0 r hr
    exact ⟨m, by rwa [Nat.zero_add] at hm⟩
  · rintro ⟨i, hi⟩
    exact ⟨i + 1, pollLoop_isSome_of_terminal j s i 0 (by rwa [Nat.zero_add])⟩
  · intro fuel i k hk
    rcases pollLoop_trace_cases j s fuel i (.sleep k) hk with h | h
    · exact absurd h (by simp)
    · injection h
  · intro n h0 ht
    have h0z : ∀ m, m < n → isTerminalStatus (s (0 + m)) = false := by
      intro m hm; rw [Nat.zero_add]; exact h0 m hm
    have htz : isTerminalStatus (s (0 + n)) = true := by rwa [Nat.zero_add]
    have hnone := pollLoop_still_running j s n 0 h0z
    have hsome := pollLoop_first_terminal j s n 0 (n + 1) h0z htz (Nat.lt_succ_self n)
    have hcount := pollLoop_poll_count j s n 0 (n + 1) h0z htz (Nat.lt_succ_self n)
    rw [Nat.zero_add] at hsome
    exact ⟨hnone, hsome, hcount.1, hcount.2⟩

theorem poll_until_terminal_witness :
    (pollLoop "job1" (fun i => if i < 2 then "IN_PROGRESS" else "COMPLETED") 0 2).1
      = none ∧
    (pollLoop "job1" (fun i => if i < 2 then "IN_PROGRESS" else "COMPLETED") 0 3).1
      = some "COMPLETED" ∧
    ((pollLoop "job1" (fun i => if i < 2 then "IN_PROGRESS" else "COMPLETED") 0 3).2.count
      (.pollJob "job1") = 3) ∧
    ((pollLoop "job1" (fun i => if i < 2 then "IN_PROGRESS" else "COMPLETED") 0 3).2.count
      (.sleep 10) = 2) :=
  (poll_until_terminal "job1" (fun i => if i < 2 then "IN_PROGRESS" else "COMPLETED")).2.2
    2 (by decide) (by decide)

/-! ## Failure isolation (C5) -/

/-- A freshly written local file is found by `FS.lookup`. -/
theorem FS_lookup_head (c : Nat) (p : String) (bl : Blob) (rest : List (String × Blob)) :
    FS.lookup ⟨c, (p, bl) :: rest⟩ p = some bl := by
  simp [FS.lookup, List.find?]

/-- C5: in every run that reaches the transcription job (cache lookup
missed with `NotFound`; download, extraction and audio upload succeeded)
whose job's first terminal status is `FAILED`, the orchestrator raises the
transcription-stage `RuntimeError`, the store gains only the audio object,
and the trace holds no `put_object` at all — the transcript cache key is
never written. -/
theorem job_failed_isolation (env : CallEnv) (ov : Overlay) (fuel : Nat)
    (uri bucket key : String) (sr : Nat) (vb wb : Blob) (n : Nat)
    (hp : parseS3Uri uri = .ok (bucket, key))
    (hmiss : readStore env ov bucket (transcript_key_of key) = .notFound)
    (hvideo : readStore env ov bucket key = .found vb)
    (hff : env.ffmpegOut sr vb = some wb)
    (h0 : ∀ m, m < n → isTerminalStatus (env.jobStatuses m) = false)
    (hfail : env.jobStatuses n = "FAILED")
    (hfuel : n < fuel) :
    ∀ res ov' tr,
      transcribe_s3_video_with_cache env ov fuel uri sr = some (res, ov', tr) →
      res = .error (.runtimeError "Transcription job failed: FAILED") ∧
      ov' = (bucket, audio_key_of key, wb) :: ov ∧
      (∀ b k, Effect.putObject b k ∉ tr) := by
  rcases hPL : pollLoop (job_name_of key env.now) env.jobStatuses 0 fuel with ⟨r1, trP⟩
  have hr1 : r1 = some "FAILED" := by
    have hterm : isTerminalStatus (env.jobStatuses (0 + n)) = true := by
      rw [Nat.zero_add, hfail]; rfl
    have h0' : ∀ m, m < n → isTerminalStatus (env.jobStatuses (0 + m)) = false := by
      intro m hm; rw [Nat.zero_add]; exact h0 m hm
    have hv := pollLoop_first_terminal (job_name_of key env.now) env.jobStatuses
      n 0 fuel h0' hterm hfuel
    rw [hPL, Nat.zero_add, hfail] at hv
    exact hv
  subst hr1
  have htrP : ∀ e ∈ trP, e = Effect.pollJob (job_name_of key env.now) ∨
      e = Effect.sleep 10 := by
    intro e he
    have h2 := congrArg Prod.snd hPL
    exact pollLoop_trace_cases _ env.jobStatuses fuel 0 e (by rw [h2]; exact he)
  intro res ov' tr h
  unfold transcribe_s3_video_with_cache at h
  rw [hp] at h
  simp only [check_cache, hmiss] at h
  unfold missPath at h
  simp only [download_from_s3, hvideo, extract_audio_ffmpeg, FS_lookup_head, hff,
    upload_to_s3, run_transcription_job, hPL, if_true] at h
  simp only [Option.some.injEq, Prod.mk.injEq] at h
  obtain ⟨hres, hov, htr⟩ := h
  refine ⟨hres.symm, hov.symm, ?_⟩
  intro b k hm
  rw [← htr] at hm
  simp at hm
  rcases htrP _ hm with hx | hx <;> simp at hx

/-- Environment whose transcription job fails at the very first poll. -/
def envC5 : CallEnv where
  base := fun b k =>
    if b = "b1" ∧ k = "video/x.mp4" then .found (.text "V") else .notFound
  jobStatuses := fun _ => "FAILED"
  jobTranscripts := []
  now := 0
  ffmpegOut := fun _ _ => some (.text "W")

theorem job_failed_isolation_witness :
    Effect.putObject "b1" "transcription/x.txt" ∉
      ([.headObject "b1" "transcription/x.txt",
        .createTempFile "/tmp/tmp0.mp4",
        .downloadFile "b1" "video/x.mp4",
        .createTempFile "/tmp/tmp1.wav",
        .runFfmpeg "/tmp/tmp0.mp4" "/tmp/tmp1.wav",
        .uploadFile "b1" "audio/x.wav",
        .startJob "transcribe-x-0",
        .pollJob "transcribe-x-0"] : List Effect) :=
  (job_failed_isolation envC5 [] 1 "s3://b1/video/x.mp4" "b1" "video/x.mp4" 16000
    (.text "V") (.text "W") 0 rfl (by decide) (by decide) rfl (by decide) rfl
    (by decide)
    (.error (.runtimeError "Transcription job failed: FAILED"))
    [("b1", "audio/x.wav", .text "W")]
    [.headObject "b1" "transcription/x.txt",
     .createTempFile "/tmp/tmp0.mp4",
     .downloadFile "b1" "video/x.mp4",
     .createTempFile "/tmp/tmp1.wav",
     .runFfmpeg "/tmp/tmp0.mp4" "/tmp/tmp1.wav",
     .uploadFile "b1" "audio/x.wav",
     .startJob "transcribe-x-0",
     .pollJob "transcribe-x-0"] (by decide)).2.2 "b1" "transcription/x.txt"

/-! ## Key scheme (C4) -/

/-- Helper: the miss path only appends to the cache-check trace it is
given. -/
theorem missPath_trace_append (env : CallEnv) (ov : Overlay) (fuel : Nat)
    (bucket key : String) (sr : Nat) (tr1 : List Effect)
    (r : Except PyErr (String × List String × Bool)) (ov' : Overlay)
    (tr : List Effect)
    (h : missPath env ov fuel bucket key sr tr1 = some (r, ov', tr)) :
    ∃ tr2, tr = tr1 ++ tr2 := by
  unfold missPath at h
  simp only [save_transcript_cache] at h
  repeat' split at h
  all_goals first
    | (exact Option.noConfusion h)
    | (simp only [Option.some.injEq, Prod.mk.injEq] at h
       obtain ⟨-, -, htr⟩ := h
       first
         | (simp only [List.append_assoc] at htr
            exact ⟨_, htr.symm⟩)
         | exact ⟨_, htr.symm⟩)

/-- Helper: every completed call's trace begins with the cache lookup at
the transcript key derived from the parsed reference — the derived keys are
a function of the reference alone, identical across calls. -/
theorem transcribe_trace_head (env : CallEnv) (ov : Overlay) (fuel : Nat)
    (uri bucket key : String) (sr : Nat)
    (res : Except PyErr (String × List String × Bool)) (ov' : Overlay)
    (tr : List Effect)
    (hp : parseS3Uri uri = .ok (bucket, key))
    (h : transcribe_s3_video_with_cache env ov fuel uri sr = some (res, ov', tr)) :
    tr.head? = some (.headObject bucket (transcript_key_of key)) := by
  unfold transcribe_s3_video_with_cache at h
  split at h
  · next e heq => rw [hp] at heq; exact absurd heq (by simp)
  · next b' k' heq =>
    rw [hp] at heq
    simp only [Except.ok.injEq, Prod.mk.injEq] at heq
    obtain ⟨hb, hk⟩ := heq
    subst hb
    subst hk
    obtain ⟨rest, hshape⟩ :=
      check_cache_trace_head env ov bucket (transcript_key_of key)
    split at h
    · next cached tr1 heqc =>
      have htr1 : tr1 = Effect.headObject bucket (transcript_key_of key) :: rest :=
        (congrArg Prod.snd heqc).symm.trans hshape
      simp only [Option.some.injEq, Prod.mk.injEq] at h
      obtain ⟨-, -, htr⟩ := h
      rw [← htr, htr1]
      rfl
    · next s tr1 heqc =>
      have htr1 : tr1 = Effect.headObject bucket (transcript_key_of key) :: rest :=
        (congrArg Prod.snd heqc).symm.trans hshape
      obtain ⟨tr2, htr⟩ := missPath_trace_append _ _ _ _ _ _ _ _ _ _ h
      rw [htr, htr1]
      rfl

/-- C4: for the video key `video/team-sync.mp4` the derived keys are exactly
`transcription/team-sync.txt`, `audio/team-sync.wav`, job name
`transcribe-team-sync-<epoch>` and job output
`transcription/transcribe-team-sync-<epoch>.json`; and for every fixed
reference the (time-independent) keys are identical across repeated calls:
every call's first store operation addresses the same derived transcript
key, computed from the parsed reference alone. -/
theorem key_scheme_round_trip :
    video_name_of "video/team-sync.mp4" = "team-sync" ∧
    transcript_key_of "video/team-sync.mp4" = "transcription/team-sync.txt" ∧
    audio_key_of "video/team-sync.mp4" = "audio/team-sync.wav" ∧
    (∀ epoch : Nat,
      job_name_of "video/team-sync.mp4" epoch =
        "transcribe-team-sync-" ++ Nat.repr epoch ∧
      output_key_of (job_name_of "video/team-sync.mp4" epoch) =
        "transcription/transcribe-team-sync-" ++ Nat.repr epoch ++ ".json") ∧
    (∀ env ov fuel uri bucket key sr res ov' tr,
      parseS3Uri uri = .ok (bucket, key) →
      transcribe_s3_video_with_cache env ov fuel uri sr = some (res, ov', tr) →
      tr.head? = some (.headObject bucket (transcript_key_of key))) := by
  refine ⟨by decide, by decide, by decide, ?_, ?_⟩
  · intro epoch
    exact ⟨rfl, rfl⟩
  · intro env ov fuel uri bucket key sr res ov' tr hp h
    exact transcribe_trace_head env ov fuel uri bucket key sr res ov' tr hp h

theorem key_scheme_round_trip_witness :
    job_name_of "video/team-sync.mp4" 1700000000 = "transcribe-team-sync-1700000000" ∧
    ([Effect.headObject "meet" "transcription/demo.txt",
      Effect.getObject "meet" "transcription/demo.txt"] : List Effect).head? =
      some (.headObject "meet" (transcript_key_of "video/demo.mp4")) :=
  ⟨(key_scheme_round_trip.2.2.2.1 1700000000).1,
   key_scheme_round_trip.2.2.2.2 envC1 [] 0 "s3://meet/video/demo.mp4" "meet"
     "video/demo.mp4" 16000
     (.ok ("Hi there. Bye.", ["Hi there", "Bye."], true)) []
     [.headObject "meet" "transcription/demo.txt",
      .getObject "meet" "transcription/demo.txt"] rfl (by decide)⟩

/-! ## Input validation (C8) -/

/-- Modelled from the spec's wording of the reference format: a URI "of the
form `scheme://container/key`" is `"s3://"` followed by a non-empty
container (up to the first slash), a slash, and a non-empty key. This
definition follows the spec's words and is compared against the code's
behaviour. -/
def isSpecFormUri (uri : String) : Bool :=
  pyStartsWith uri "s3://" &&
    (match splitFirst ['/'] (uri.data.drop 5) with
     | some (c, k) => !c.isEmpty && !k.isEmpty
     | none => false)

/-- A store with nothing in it (every request reports `NotFound`). -/
def envC8 : CallEnv where
  base := fun _ _ => .notFound
  jobStatuses := fun _ => "IN_PROGRESS"
  jobTranscripts := []
  now := 0
  ffmpegOut := fun _ _ => none

/-- C8 counterexample: `"s3://b/"` is not of the form
`scheme://container/key` (its key is empty), yet the call does **not** fail
fast with an invalid-reference error before any network call: it performs
the cache lookup (`head_object`, a network call to the store) and then
attempts the video download, surfacing a `ClientError` — the only fast
validation in the code is the `startswith("s3://")` assertion. -/
theorem invalid_uri_fail_fast_counterexample :
    isSpecFormUri "s3://b/" = false ∧
    transcribe_s3_video_with_cache envC8 [] 1 "s3://b/" 16000 =
      some (.error (.clientError "NoSuchKey"), [],
            [.headObject "b" "transcription/.txt",
             .createTempFile "/tmp/tmp0",
             .downloadFile "b" ""]) ∧
    Effect.headObject "b" "transcription/.txt" ∈
      ([.headObject "b" "transcription/.txt",
        .createTempFile "/tmp/tmp0",
        .downloadFile "b" ""] : List Effect) :=
  ⟨rfl, by decide, by decide⟩

/-- C8 amended: the fail-fast validation covers exactly the two malformed
shapes the code can detect. Every input not beginning with `"s3://"` fails
at once with the invalid-reference assertion and an empty effect trace (no
network call); every input beginning with `"s3://"` whose remainder after
removing all `"s3://"` occurrences contains no `"/"` fails at once with a
`ValueError` from tuple unpacking, again with no effects. Inputs with an
empty container or empty key are not rejected and proceed to the store
lookup (see the counterexample). -/
theorem invalid_uri_fail_fast_amended (env : CallEnv) (ov : Overlay)
    (fuel : Nat) (uri : String) (sr : Nat) :
    (pyStartsWith uri "s3://" = false →
      transcribe_s3_video_with_cache env ov fuel uri sr =
        some (.error (.assertionError "Invalid S3 URI format"), ov, [])) ∧
    (pyStartsWith uri "s3://" = true →
      splitFirst ['/'] (pyReplace uri "s3://" "").data = none →
      transcribe_s3_video_with_cache env ov fuel uri sr =
        some (.error (.valueError "not enough values to unpack"), ov, [])) := by
  constructor
  · intro hs
    unfold transcribe_s3_video_with_cache parseS3Uri
    rw [hs]
    rfl
  · intro hs hsplit
    unfold transcribe_s3_video_with_cache parseS3Uri
    rw [hs, hsplit]
    rfl

theorem invalid_uri_fail_fast_amended_witness :
    transcribe_s3_video_with_cache envC8 [] 1 "file://b/k" 16000 =
      some (.error (.assertionError "Invalid S3 URI format"), [], []) ∧
    transcribe_s3_video_with_cache envC8 [] 1 "s3://bucketonly" 16000 =
      some (.error (.valueError "not enough values to unpack"), [], []) :=
  ⟨(invalid_uri_fail_fast_amended envC8 [] 1 "file://b/k" 16000).1 (by decide),
   (invalid_uri_fail_fast_amended envC8 [] 1 "s3://bucketonly" 16000).2
     (by decide) (by decide)⟩

/-! ## Scratch files (C9) -/

/-- Is an effect the creation of a local temporary file? -/
def Effect.isCreateTempFile : Effect → Bool
  | .createTempFile _ => true
  | _ => false

/-- Is an effect the deletion of a local file? -/
def Effect.isRemoveFile : Effect → Bool
  | .removeFile _ => true
  | _ => false

/-- C9 counterexample: a fully successful pipeline run creates three
scratch files (`NamedTemporaryFile(delete=False)` for the downloaded video,
the extracted audio and the fetched job JSON) and deletes none of them —
the code has no `os.remove`/cleanup at any point, so the run leaves all
three behind, contradicting "released once the stage completes; no run
leaves scratch files behind". -/
theorem temp_files_counterexample :
    (transcribe_s3_video_with_cache envC6 [] 1 "s3://b1/video/x.mp4" 16000).map
        (fun r => (r.2.2.countP (fun e => e.isCreateTempFile),
                   r.2.2.countP (fun e => e.isRemoveFile))) = some (3, 0) := by
  decide

/-- A write just pushed onto the overlay is read back. -/
theorem readStore_cons_self (env : CallEnv) (ov : Overlay) (b k : String) (bl : Blob) :
    readStore env ((b, k, bl) :: ov) b k = .found bl := by
  simp [readStore, ovLookup]

/-- C9 amended: scratch files are never released. Every run that reaches a
successful completion creates exactly three temporary files and its trace
contains no file deletion at all; the temporary files survive the call. -/
theorem temp_files_never_released (env : CallEnv) (ov : Overlay) (fuel : Nat)
    (uri bucket key : String) (sr : Nat) (vb wb : Blob) (n : Nat)
    (t : String) (ts : List String)
    (hp : parseS3Uri uri = .ok (bucket, key))
    (hmiss : readStore env ov bucket (transcript_key_of key) = .notFound)
    (hvideo : readStore env ov bucket key = .found vb)
    (hff : env.ffmpegOut sr vb = some wb)
    (hts : env.jobTranscripts = t :: ts)
    (h0 : ∀ m, m < n → isTerminalStatus (env.jobStatuses m) = false)
    (hcomp : env.jobStatuses n = "COMPLETED")
    (hfuel : n < fuel) :
    ∀ res ov' tr,
      transcribe_s3_video_with_cache env ov fuel uri sr = some (res, ov', tr) →
      (∀ p, Effect.removeFile p ∉ tr) ∧
      tr.countP (fun e => e.isCreateTempFile) = 3 := by
  rcases hPL : pollLoop (job_name_of key env.now) env.jobStatuses 0 fuel with ⟨r1, trP⟩
  have hr1 : r1 = some "COMPLETED" := by
    have hterm : isTerminalStatus (env.jobStatuses (0 + n)) = true := by
      rw [Nat.zero_add, hcomp]; rfl
    have h0' : ∀ m, m < n → isTerminalStatus (env.jobStatuses (0 + m)) = false := by
      intro m hm; rw [Nat.zero_add]; exact h0 m hm
    have hv := pollLoop_first_terminal (job_name_of key env.now) env.jobStatuses
      n 0 fuel h0' hterm hfuel
    rw [hPL, Nat.zero_add, hcomp] at hv
    exact hv
  subst hr1
  have htrP : ∀ e ∈ trP, e = Effect.pollJob (job_name_of key env.now) ∨
      e = Effect.sleep 10 := by
    intro e he
    have h2 := congrArg Prod.snd hPL
    exact pollLoop_trace_cases _ env.jobStatuses fuel 0 e (by rw [h2]; exact he)
  intro res ov' tr h
  unfold transcribe_s3_video_with_cache at h
  rw [hp] at h
  simp only [check_cache, hmiss] at h
  unfold missPath at h
  simp only [download_from_s3, hvideo, extract_audio_ffmpeg, FS_lookup_head, hff,
    upload_to_s3, run_transcription_job, hPL, if_true, readStore_cons_self,
    save_transcript_cache, hts] at h
  simp [readStore_cons_self, FS_lookup_head] at h
  obtain ⟨hres, hov, htr⟩ := h
  constructor
  · intro p hm
    rw [← htr] at hm
    simp at hm
    rcases htrP _ hm with hx | hx <;> simp at hx
  · rw [← htr]
    have hPcount : trP.countP (fun e => e.isCreateTempFile) = 0 := by
      rw [List.countP_eq_zero]
      intro a ha
      rcases htrP a ha with hx | hx <;> simp [hx, Effect.isCreateTempFile]
    simp [List.countP_append, List.countP_cons, hPcount, Effect.isCreateTempFile]
    intro a ha
    rcases htrP a ha with hx | hx <;> subst hx <;> rfl

theorem temp_files_never_released_witness :
    Effect.removeFile "/tmp/tmp0.mp4" ∉
      ([.headObject "b1" "transcription/x.txt",
        .createTempFile "/tmp/tmp0.mp4",
        .downloadFile "b1" "video/x.mp4",
        .createTempFile "/tmp/tmp1.wav",
        .runFfmpeg "/tmp/tmp0.mp4" "/tmp/tmp1.wav",
        .uploadFile "b1" "audio/x.wav",
        .startJob "transcribe-x-0",
        .pollJob "transcribe-x-0",
        .createTempFile "/tmp/tmp2.json",
        .downloadFile "b1" "transcription/transcribe-x-0.json",
        .putObject "b1" "transcription/x.txt"] : List Effect) :=
  (temp_files_never_released envC6 [] 1 "s3://b1/video/x.mp4" "b1" "video/x.mp4"
    16000 (.text "V") (.text "W") 0 "Hello world. This is a test." []
    rfl (by decide) (by decide) rfl rfl (by decide) rfl (by decide)
    (.ok ("Hello world. This is a test.",
          ["Hello world", "This is a test."], false))
    [("b1", "transcription/x.txt", .text "Hello world. This is a test."),
     ("b1", "transcription/transcribe-x-0.json",
      .transcribeJson ["Hello world. This is a test."]),
     ("b1", "audio/x.wav", .text "W")]
    [.headObject "b1" "transcription/x.txt",
     .createTempFile "/tmp/tmp0.mp4",
     .downloadFile "b1" "video/x.mp4",
     .createTempFile "/tmp/tmp1.wav",
     .runFfmpeg "/tmp/tmp0.mp4" "/tmp/tmp1.wav",
     .uploadFile "b1" "audio/x.wav",
     .startJob "transcribe-x-0",
     .pollJob "transcribe-x-0",
     .createTempFile "/tmp/tmp2.json",
     .downloadFile "b1" "transcription/transcribe-x-0.json",
     .putObject "b1" "transcription/x.txt"] (by decide)).1 "/tmp/tmp0.mp4"
